import Mathlib

/-!
# Tesseract front-end: region selection and OCR dispatch

A shallow embedding of `src/main.cpp` (classes `ImageLabel` and `OCRWindow`).

* Widget state is passed explicitly; every handler returns the new state
  together with the list of interactions it performed (`Effect`), in program
  order.
* The toolkit value types the program computes with (`QPoint`, `QRect`, the
  path helpers of `QDir` and `QFileInfo`, the name filter of
  `QDir::entryList`) are modelled after the Qt 5 documentation.
* Everything outside the program (which files decode, what a child process
  prints, what a folder contains) is read from an `Env` record.
* Coordinates are widget pixel positions; they are kept as unbounded
  integers, since the only arithmetic done on them (`x + w - 1` with
  `w = x2 - x + 1`) gives the same result with or without 32-bit wrap-around.
-/

namespace TesseractFrontend

/-! ## Toolkit value types -/

/-- A point of the widget, `QPoint`. -/
structure QPoint where
  x : Int
  y : Int
deriving DecidableEq, Repr

/-- A rectangle, `QRect`, stored as Qt stores it: the two corner pixels. -/
structure QRect where
  x1 : Int
  y1 : Int
  x2 : Int
  y2 : Int
deriving DecidableEq, Repr

namespace QRect

/-- The default-constructed rectangle `QRect()`. -/
def null : QRect := ⟨0, 0, -1, -1⟩

/-- The constructor `QRect(topLeft, bottomRight)`. -/
def ofPoints (topLeft bottomRight : QPoint) : QRect :=
  ⟨topLeft.x, topLeft.y, bottomRight.x, bottomRight.y⟩

/-- The constructor `QRect(x, y, width, height)`. -/
def ofXYWH (x y w h : Int) : QRect := ⟨x, y, x + w - 1, y + h - 1⟩

/-- The accessor `QRect::x()`. -/
def x (r : QRect) : Int := r.x1

/-- The accessor `QRect::y()`. -/
def y (r : QRect) : Int := r.y1

/-- The accessor `QRect::width()`. -/
def width (r : QRect) : Int := r.x2 - r.x1 + 1

/-- The accessor `QRect::height()`. -/
def height (r : QRect) : Int := r.y2 - r.y1 + 1

/-- The test `QRect::isNull()`: width and height are both 0. -/
def isNull (r : QRect) : Bool := r.x2 == r.x1 - 1 && r.y2 == r.y1 - 1

/-- The function `QRect::normalized()` of Qt 5: corners are swapped where the
extent is negative. -/
def normalized (r : QRect) : QRect :=
  let xs : Int × Int := if r.x2 < r.x1 - 1 then (r.x2, r.x1) else (r.x1, r.x2)
  let ys : Int × Int := if r.y2 < r.y1 - 1 then (r.y2, r.y1) else (r.y1, r.y2)
  ⟨xs.1, ys.1, xs.2, ys.2⟩

end QRect

/-! ## Paths and name filters -/

/-- The function `QDir::filePath` for a file name relative to the folder. -/
def filePath (dir fileName : String) : String :=
  if dir.toList.getLast? = some '/' then dir ++ fileName else dir ++ "/" ++ fileName

/-- The function `QFileInfo::completeBaseName` for a bare file name: all
characters up to, not including, the last dot; the whole name when it has no
dot. -/
def completeBaseName (file : String) : String :=
  let cs := file.toList
  if cs.contains '.' then
    String.mk ((cs.reverse.dropWhile (fun c => c != '.')).drop 1).reverse
  else file

/-- Lower-case form of an ASCII capital, other characters unchanged. -/
def lowerAscii (c : Char) : Char :=
  if 65 ≤ c.toNat ∧ c.toNat ≤ 90 then Char.ofNat (c.toNat + 32) else c

/-- A name filter of the form `*suffix` as `QDir::entryList` applies it when
`QDir::CaseSensitive` is not among the filter flags: the name ends in the
suffix, letter case ignored. -/
def matchesSuffixFilter (suffix name : String) : Bool :=
  (suffix.toList.map lowerAscii).isSuffixOf (name.toList.map lowerAscii)

/-- The two name filters of `batchProcessFolder`, `*.png` and `*.jpg`. -/
def matchesImageFilters (name : String) : Bool :=
  matchesSuffixFilter ".png" name || matchesSuffixFilter ".jpg" name

/-! ## Environment and interactions -/

/-- Everything the program reads from outside itself. -/
structure Env where
  /-- The value of `QApplication::applicationDirPath()`. -/
  applicationDirPath : String
  /-- Whether the image reader can decode the file at a path. -/
  decodes : String → Bool
  /-- What `readAllStandardOutput()` yields after `waitForFinished()` for a
  program and argument list. -/
  standardOutput : String → List String → String
  /-- The exit code `QProcess::execute` returns for a program and argument
  list. -/
  exitCode : String → List String → Int
  /-- The names `QDir` reports for a folder under the `QDir::Files` filter,
  in the order it reports them. -/
  files : String → List String

/-- Whether `QPixmap(path)` and `QImage(path)` give a non-null image: an
empty file name never loads, any other path loads when the file decodes. -/
def Env.loads (env : Env) (path : String) : Bool :=
  !path.isEmpty && env.decodes path

/-- The interactions a handler performs, logged in program order. -/
inductive Effect where
  /-- A repaint request, `update()`. -/
  | update
  /-- The signal `regionSelected(rect)`. -/
  | regionSelected (rect : QRect)
  /-- The signal `imageDropped(path)`. -/
  | imageDropped (path : String)
  /-- The construction `QPixmap img(path)`, reading the file. -/
  | decodePixmap (path : String)
  /-- The construction `QImage original(path)`, reading the file. -/
  | decodeImage (path : String)
  /-- The call `original.copy(rect)` on the image decoded from `source`. -/
  | copy (source : String) (rect : QRect)
  /-- The call `cropped.save(dest)`. -/
  | save (dest : String)
  /-- The calls `proc.start(program, args)` and `proc.waitForFinished()`. -/
  | start (program : String) (args : List String)
  /-- The call `QProcess::execute(program, args)` with the exit code it
  returned. -/
  | execute (program : String) (args : List String) (exit : Int)
deriving DecidableEq, Repr

/-- The rectangles emitted through `regionSelected`, in order. -/
def emitted : List Effect → List QRect
  | [] => []
  | Effect.regionSelected r :: es => r :: emitted es
  | _ :: es => emitted es

/-- The external processes launched, in order, each with its argument list. -/
def invocations : List Effect → List (String × List String)
  | [] => []
  | Effect.start p a :: es => (p, a) :: invocations es
  | Effect.execute p a _ :: es => (p, a) :: invocations es
  | _ :: es => invocations es

/-- The files written by the program itself, in order. -/
def savedFiles : List Effect → List String
  | [] => []
  | Effect.save d :: es => d :: savedFiles es
  | _ :: es => savedFiles es

/-- The crops taken, in order: the file the cropped image was decoded from
and the rectangle passed to `copy`. -/
def crops : List Effect → List (String × QRect)
  | [] => []
  | Effect.copy s r :: es => (s, r) :: crops es
  | _ :: es => crops es

/-! ## `ImageLabel` -/

/-- The state of the image surface. The pixmap on display is identified by
the path it was decoded from; `none` is a label without pixmap. -/
structure ImageLabel where
  pixmap : Option String
  selectionRect : QRect
  startPos : QPoint
  selecting : Bool
deriving DecidableEq, Repr

namespace ImageLabel

/-- A freshly constructed label. -/
def initial : ImageLabel := ⟨none, QRect.null, ⟨0, 0⟩, false⟩

/-- The call `setPixmap(img)` of `QLabel`, for the image decoded from `path`. -/
def setPixmap (l : ImageLabel) (path : String) : ImageLabel :=
  { l with pixmap := some path }

/-- The handler `dropEvent`; the URLs are given as local file paths. -/
def dropEvent (l : ImageLabel) (urls : List String) : ImageLabel × List Effect :=
  match urls with
  | [] => (l, [])
  | first :: _ => (l, [Effect.imageDropped first])

/-- The handler `mousePressEvent`. -/
def mousePressEvent (l : ImageLabel) (pos : QPoint) : ImageLabel × List Effect :=
  if l.pixmap.isNone then (l, [])
  else ({ l with startPos := pos, selecting := true, selectionRect := QRect.null }, [])

/-- The handler `mouseMoveEvent`. -/
def mouseMoveEvent (l : ImageLabel) (pos : QPoint) : ImageLabel × List Effect :=
  if l.selecting then
    ({ l with selectionRect := (QRect.ofPoints l.startPos pos).normalized }, [Effect.update])
  else (l, [])

/-- The handler `mouseReleaseEvent`; the release position is not read. -/
def mouseReleaseEvent (l : ImageLabel) (_pos : QPoint) : ImageLabel × List Effect :=
  if l.selecting then
    ({ l with selecting := false }, [Effect.update, Effect.regionSelected l.selectionRect])
  else (l, [])

/-- Whether `paintEvent` draws the red outline over the pixmap. -/
def drawsOutline (l : ImageLabel) : Bool := !l.selectionRect.isNull

/-- A run of `mouseMoveEvent` over successive positions. -/
def moves (l : ImageLabel) : List QPoint → ImageLabel × List Effect
  | [] => (l, [])
  | p :: ps =>
    let r1 := l.mouseMoveEvent p
    let r2 := moves r1.1 ps
    (r2.1, r1.2 ++ r2.2)

/-- A pointer sequence: press at `s`, drag through `ms`, release at `e`. -/
def pointerSequence (l : ImageLabel) (s : QPoint) (ms : List QPoint) (e : QPoint) :
    ImageLabel × List Effect :=
  let r1 := l.mousePressEvent s
  let r2 := r1.1.moves ms
  let r3 := r2.1.mouseReleaseEvent e
  (r3.1, r1.2 ++ r2.2 ++ r3.2)

end ImageLabel

/-! ## `OCRWindow` -/

/-- The state of the main window. `text` is the plain text of `textEdit`. -/
structure OCRWindow where
  imageLabel : ImageLabel
  text : String
  currentImagePath : String
  lang : String
deriving DecidableEq, Repr

/-- The entries of the Language menu. -/
inductive LangAction where
  | english
  | spanish
  | german
deriving DecidableEq, Repr

/-- The code an entry of the Language menu was added with. -/
def LangAction.code : LangAction → String
  | LangAction.english => "eng"
  | LangAction.spanish => "spa"
  | LangAction.german => "deu"

namespace OCRWindow

/-- The window after its constructor. -/
def initial : OCRWindow := ⟨ImageLabel.initial, "", "", "eng"⟩

/-- The slot of a Language menu action: `lang = code`. -/
def selectLanguage (w : OCRWindow) (a : LangAction) : OCRWindow × List Effect :=
  ({ w with lang := a.code }, [])

/-- The method `performOCR(path, rect)`. -/
def performOCR (env : Env) (w : OCRWindow) (path : String) (rect : QRect) :
    OCRWindow × List Effect :=
  let command := "/tesseract"
  let finish (croppedImage : String) (before : List Effect) : OCRWindow × List Effect :=
    let args := [croppedImage, "-", "-l", w.lang]
    let program := env.applicationDirPath ++ command
    let result := env.standardOutput program args
    ({ w with text := result }, before ++ [Effect.start program args])
  if !rect.isNull then
    if !env.loads path then (w, [Effect.decodeImage path])
    else
      let scaledRect := QRect.ofXYWH rect.x rect.y rect.width rect.height
      let croppedImage := env.applicationDirPath ++ "/ocr_crop.png"
      finish croppedImage
        [Effect.decodeImage path, Effect.copy path scaledRect, Effect.save croppedImage]
  else finish path []

/-- The method `loadImage(path)`. -/
def loadImage (env : Env) (w : OCRWindow) (path : String) : OCRWindow × List Effect :=
  if !env.loads path then (w, [Effect.decodePixmap path])
  else
    let w1 := { w with imageLabel := w.imageLabel.setPixmap path }
    let w2 := { w1 with currentImagePath := path }
    let r := performOCR env w2 path QRect.null
    (r.1, Effect.decodePixmap path :: r.2)

/-- The method `performOCROnRegion(rect)`. -/
def performOCROnRegion (env : Env) (w : OCRWindow) (rect : QRect) : OCRWindow × List Effect :=
  if !w.currentImagePath.isEmpty then performOCR env w w.currentImagePath rect
  else (w, [])

/-- The loop body of `batchProcessFolder` for one listed file. -/
def batchOne (env : Env) (w : OCRWindow) (dir file : String) : Effect :=
  let input := filePath dir file
  let baseName := completeBaseName file
  let output := filePath dir (baseName ++ ".txt")
  let args := [input, output, "-l", w.lang]
  Effect.execute "tesseract" args (env.exitCode "tesseract" args)

/-- The call `directory.entryList({"*.png", "*.jpg"}, QDir::Files)`. -/
def entryList (env : Env) (dir : String) : List String :=
  (env.files dir).filter matchesImageFilters

/-- The method `batchProcessFolder`; `dir` is what the folder dialog
returned, the empty string when it was cancelled. -/
def batchProcessFolder (env : Env) (w : OCRWindow) (dir : String) : OCRWindow × List Effect :=
  if dir.isEmpty then (w, [])
  else (w, (entryList env dir).map (batchOne env w dir))

end OCRWindow

/-! ## The window as an event handler -/

/-- The user actions the window reacts to. -/
inductive Event where
  /-- Files dropped on the image surface, as local paths. -/
  | drop (urls : List String)
  | press (pos : QPoint)
  | move (pos : QPoint)
  | release (pos : QPoint)
  /-- An entry of the Language menu triggered. -/
  | language (a : LangAction)
  /-- The Batch Folder action, with the answer of the folder dialog. -/
  | batchFolder (dir : String)
deriving DecidableEq, Repr

/-- Whether an event is a language selection. -/
def Event.isLanguage : Event → Bool
  | Event.language _ => true
  | _ => false

namespace OCRWindow

/-- Delivery of the signals of the image surface to the slots they are
connected to in the constructor: `imageDropped` to `loadImage`,
`regionSelected` to `performOCROnRegion`. Each effect stays in the log and
is followed by what its slot did. -/
def deliver (env : Env) (w : OCRWindow) : List Effect → OCRWindow × List Effect
  | [] => (w, [])
  | e :: es =>
    let r1 : OCRWindow × List Effect :=
      match e with
      | Effect.imageDropped path => loadImage env w path
      | Effect.regionSelected rect => performOCROnRegion env w rect
      | _ => (w, [])
    let r2 := deliver env r1.1 es
    (r2.1, e :: r1.2 ++ r2.2)

/-- An event of the image surface: the label handler runs, then its signals
are delivered. -/
def onLabel (env : Env) (w : OCRWindow) (r : ImageLabel × List Effect) : OCRWindow × List Effect :=
  deliver env { w with imageLabel := r.1 } r.2

/-- One user action handled by the window. -/
def handle (env : Env) (w : OCRWindow) : Event → OCRWindow × List Effect
  | Event.drop urls => onLabel env w (w.imageLabel.dropEvent urls)
  | Event.press pos => onLabel env w (w.imageLabel.mousePressEvent pos)
  | Event.move pos => onLabel env w (w.imageLabel.mouseMoveEvent pos)
  | Event.release pos => onLabel env w (w.imageLabel.mouseReleaseEvent pos)
  | Event.language a => selectLanguage w a
  | Event.batchFolder dir => batchProcessFolder env w dir

/-- A session: each action is handled in the environment current when it
happens. -/
def run (w : OCRWindow) : List (Env × Event) → OCRWindow × List Effect
  | [] => (w, [])
  | (env, ev) :: rest =>
    let r1 := handle env w ev
    let r2 := run r1.1 rest
    (r2.1, r1.2 ++ r2.2)

end OCRWindow

/-- Modelled from the spec: the OCR engine itself is not part of the
repository; section 6 of the specification says that in batch mode the
output target is a base file name to which the engine appends `.txt`. This
is the file the engine writes for an output target. -/
def engineOutputFile (outputTarget : String) : String := outputTarget ++ ".txt"

/-! ## Concrete environments used in examples -/

/-- An environment in which only the crop file of the application folder
decodes. -/
def envCropOnly : Env :=
  ⟨"/app", fun p => p == "/app/ocr_crop.png", fun _ _ => "", fun _ _ => 1, fun _ => []⟩

/-- An environment in which every file decodes, every recognition prints
`TEXT`, and the folder `/scans` holds `a.png`, `b.jpg` and `c.txt`. -/
def envScans : Env :=
  ⟨"/app", fun _ => true, fun _ _ => "TEXT", fun _ _ => 0,
    fun d => if d = "/scans" then ["a.png", "b.jpg", "c.txt"] else []⟩

/-- An environment whose folder `/scans` holds `SCAN.PNG` and `notes.txt`. -/
def envUpper : Env :=
  ⟨"/app", fun _ => true, fun _ _ => "", fun _ _ => 0,
    fun d => if d = "/scans" then ["SCAN.PNG", "notes.txt"] else []⟩

/-! ## Basic facts -/

theorem QRect.ofXYWH_self (r : QRect) : QRect.ofXYWH r.x r.y r.width r.height = r := by
  cases r
  simp only [QRect.ofXYWH, QRect.x, QRect.y, QRect.width, QRect.height, QRect.mk.injEq,
    true_and]
  constructor <;> ring

theorem QRect.isNull_null : QRect.null.isNull = true := by decide

theorem invocations_append (a b : List Effect) :
    invocations (a ++ b) = invocations a ++ invocations b := by
  induction a with
  | nil => rfl
  | cons e es ih => cases e <;> simp [invocations, ih]

theorem emitted_append (a b : List Effect) : emitted (a ++ b) = emitted a ++ emitted b := by
  induction a with
  | nil => rfl
  | cons e es ih => cases e <;> simp [emitted, ih]

theorem performOCR_null (env : Env) (w : OCRWindow) (path : String) (rect : QRect)
    (h : rect.isNull = true) :
    OCRWindow.performOCR env w path rect =
      ({ w with text := env.standardOutput (env.applicationDirPath ++ "/tesseract")
                          [path, "-", "-l", w.lang] },
       [Effect.start (env.applicationDirPath ++ "/tesseract") [path, "-", "-l", w.lang]]) := by
  simp [OCRWindow.performOCR, h]

theorem performOCR_crop (env : Env) (w : OCRWindow) (path : String) (rect : QRect)
    (h : rect.isNull = false) (hl : env.loads path = true) :
    OCRWindow.performOCR env w path rect =
      ({ w with text := env.standardOutput (env.applicationDirPath ++ "/tesseract")
                          [env.applicationDirPath ++ "/ocr_crop.png", "-", "-l", w.lang] },
       [Effect.decodeImage path, Effect.copy path rect,
        Effect.save (env.applicationDirPath ++ "/ocr_crop.png"),
        Effect.start (env.applicationDirPath ++ "/tesseract")
          [env.applicationDirPath ++ "/ocr_crop.png", "-", "-l", w.lang]]) := by
  simp [OCRWindow.performOCR, h, hl, QRect.ofXYWH_self]

theorem performOCR_undecodable (env : Env) (w : OCRWindow) (path : String) (rect : QRect)
    (h : rect.isNull = false) (hl : env.loads path = false) :
    OCRWindow.performOCR env w path rect = (w, [Effect.decodeImage path]) := by
  simp [OCRWindow.performOCR, h, hl]

/-! ## C1: arguments of the recognition process -/

/-- C1 (as stated, refuted): with a selection, `performOCR` on a path that
does not decode launches no process at all, and on the crop file itself the
first argument of the launched process is the very path it was given. -/
theorem performOCR_selection_counterexample :
    invocations (OCRWindow.performOCR envCropOnly OCRWindow.initial "/pics/gone.png"
        ⟨10, 10, 110, 60⟩).2 = [] ∧
    invocations (OCRWindow.performOCR envCropOnly OCRWindow.initial "/app/ocr_crop.png"
        ⟨10, 10, 110, 60⟩).2
      = [("/app/tesseract", ["/app/ocr_crop.png", "-", "-l", "eng"])] := by
  decide

/-- C1 (amended): without a selection `performOCR` does nothing but launch
the OCR process on `[p, "-", "-l", l]`; with a selection on a path that
decodes it decodes the file, crops it, saves the crop to the application
folder as `ocr_crop.png` and only then launches the process on
`[c, "-", "-l", l]` with `c` the path of that crop file, whatever `p` is. -/
theorem performOCR_arguments (env : Env) (w : OCRWindow) (p : String) (r : QRect)
    (h : r.isNull = true ∨ env.loads p = true) :
    (OCRWindow.performOCR env w p r).2 =
      if r.isNull then
        [Effect.start (env.applicationDirPath ++ "/tesseract") [p, "-", "-l", w.lang]]
      else
        [Effect.decodeImage p, Effect.copy p r,
         Effect.save (env.applicationDirPath ++ "/ocr_crop.png"),
         Effect.start (env.applicationDirPath ++ "/tesseract")
           [env.applicationDirPath ++ "/ocr_crop.png", "-", "-l", w.lang]] := by
  cases hr : r.isNull with
  | true => simp [performOCR_null env w p r hr]
  | false =>
    have hl : env.loads p = true := by
      rcases h with h | h
      · rw [hr] at h; cases h
      · exact h
    simp [performOCR_crop env w p r hr hl]

/-- C1 (amended), at a concrete input: a selection on `/pics/photo.png`. -/
theorem performOCR_arguments_witness :
    (OCRWindow.performOCR envScans OCRWindow.initial "/pics/photo.png" ⟨10, 10, 110, 60⟩).2 =
      [Effect.decodeImage "/pics/photo.png", Effect.copy "/pics/photo.png" ⟨10, 10, 110, 60⟩,
       Effect.save "/app/ocr_crop.png",
       Effect.start "/app/tesseract" ["/app/ocr_crop.png", "-", "-l", "eng"]] :=
  performOCR_arguments envScans OCRWindow.initial "/pics/photo.png" ⟨10, 10, 110, 60⟩
    (Or.inr (by decide))

/-! ## C7: decode failure -/

/-- C7: when the file does not load, `loadImage` leaves the whole window
state (pixmap, image path, text) as it was and launches nothing, and
`performOCR` with a selection leaves the window state as it was, saves no
crop and launches nothing; the only interaction is the failed read. -/
theorem decode_failure_is_noop (env : Env) (w : OCRWindow) (p : String) (r : QRect)
    (hl : env.loads p = false) (hr : r.isNull = false) :
    OCRWindow.loadImage env w p = (w, [Effect.decodePixmap p]) ∧
    OCRWindow.performOCR env w p r = (w, [Effect.decodeImage p]) ∧
    invocations (OCRWindow.loadImage env w p).2 = [] ∧
    invocations (OCRWindow.performOCR env w p r).2 = [] ∧
    savedFiles (OCRWindow.performOCR env w p r).2 = [] := by
  have h1 : OCRWindow.loadImage env w p = (w, [Effect.decodePixmap p]) := by
    simp [OCRWindow.loadImage, hl]
  have h2 := performOCR_undecodable env w p r hr hl
  rw [h1, h2]
  simp [invocations, savedFiles]

/-- C7, at a concrete input: a file that does not decode. -/
theorem decode_failure_is_noop_witness :
    OCRWindow.loadImage envCropOnly OCRWindow.initial "/pics/gone.png"
      = (OCRWindow.initial, [Effect.decodePixmap "/pics/gone.png"]) ∧
    OCRWindow.performOCR envCropOnly OCRWindow.initial "/pics/gone.png" ⟨10, 10, 110, 60⟩
      = (OCRWindow.initial, [Effect.decodeImage "/pics/gone.png"]) :=
  have h := decode_failure_is_noop envCropOnly OCRWindow.initial "/pics/gone.png"
    ⟨10, 10, 110, 60⟩ (by decide) (by decide)
  ⟨h.1, h.2.1⟩

/-! ## C9: loading an image -/

/-- C9: for a path that loads, `loadImage` puts the image on display, sets
the current image path to `p` (so an image is loaded afterwards), and makes
exactly one recognition call, on the whole image (no crop), with arguments
`[p, "-", "-l", l]`; the captured output becomes the displayed text. -/
theorem loadImage_recognizes (env : Env) (w : OCRWindow) (p : String)
    (hl : env.loads p = true) :
    (OCRWindow.loadImage env w p).1.imageLabel.pixmap = some p ∧
    (OCRWindow.loadImage env w p).1.currentImagePath = p ∧
    (OCRWindow.loadImage env w p).1.currentImagePath.isEmpty = false ∧
    (OCRWindow.loadImage env w p).2 =
      [Effect.decodePixmap p,
       Effect.start (env.applicationDirPath ++ "/tesseract") [p, "-", "-l", w.lang]] ∧
    (OCRWindow.loadImage env w p).1.text =
      env.standardOutput (env.applicationDirPath ++ "/tesseract") [p, "-", "-l", w.lang] ∧
    (OCRWindow.loadImage env w p).1.lang = w.lang := by
  have hne : p.isEmpty = false := by
    simp [Env.loads] at hl
    simpa using hl.1
  simp [OCRWindow.loadImage, hl, performOCR_null, QRect.isNull_null, ImageLabel.setPixmap, hne]

/-- C9, at a concrete input: loading `/pics/photo.png` into a new window. -/
theorem loadImage_recognizes_witness :
    (OCRWindow.loadImage envScans OCRWindow.initial "/pics/photo.png").2 =
      [Effect.decodePixmap "/pics/photo.png",
       Effect.start "/app/tesseract" ["/pics/photo.png", "-", "-l", "eng"]] ∧
    (OCRWindow.loadImage envScans OCRWindow.initial "/pics/photo.png").1.text = "TEXT" :=
  have h := loadImage_recognizes envScans OCRWindow.initial "/pics/photo.png" (by decide)
  ⟨h.2.2.2.1, h.2.2.2.2.1⟩

/-! ## C2: what a pointer sequence emits -/

/-- The rectangle a drag leaves in `selectionRect`: the normalized rectangle
of the press point and the last drag position, the null rectangle when there
was no drag move. -/
def dragRect (s : QPoint) (ms : List QPoint) : QRect :=
  match ms.getLast? with
  | none => QRect.null
  | some m => (QRect.ofPoints s m).normalized

theorem moves_selecting (l : ImageLabel) (ms : List QPoint) (h : l.selecting = true) :
    (l.moves ms).1 =
      { l with selectionRect :=
          match ms.getLast? with
          | none => l.selectionRect
          | some m => (QRect.ofPoints l.startPos m).normalized } ∧
    emitted (l.moves ms).2 = [] := by
  induction ms generalizing l with
  | nil => simp [ImageLabel.moves, emitted]
  | cons p ps ih =>
    have h1 : l.mouseMoveEvent p =
        ({ l with selectionRect := (QRect.ofPoints l.startPos p).normalized },
          [Effect.update]) := by
      simp [ImageLabel.mouseMoveEvent, h]
    have ih2 := ih { l with selectionRect := (QRect.ofPoints l.startPos p).normalized } h
    simp only [ImageLabel.moves, h1, emitted_append, ih2.2, ih2.1]
    refine ⟨?_, by simp [emitted]⟩
    cases ps with
    | nil => simp
    | cons q qs =>
      simp only [List.getLast?_cons_cons]
      cases hq : (q :: qs).getLast? with
      | none => simp at hq
      | some m => rfl

/-- C2 (as stated, refuted): on a label that shows an image, a press at
(10,10) released at (110,60) with no drag move emits the null rectangle, and
a press at (10,10) dragged to (50,50) and released at (110,60) emits the
rectangle (10,10)-(50,50); neither is the normalized rectangle of the press
and release points. -/
theorem pointerSequence_counterexample :
    emitted ((ImageLabel.initial.setPixmap "/pics/photo.png").pointerSequence
        ⟨10, 10⟩ [] ⟨110, 60⟩).2 = [QRect.null] ∧
    emitted ((ImageLabel.initial.setPixmap "/pics/photo.png").pointerSequence
        ⟨10, 10⟩ [⟨50, 50⟩] ⟨110, 60⟩).2 = [⟨10, 10, 50, 50⟩] ∧
    (QRect.ofPoints ⟨10, 10⟩ ⟨110, 60⟩).normalized = ⟨10, 10, 110, 60⟩ ∧
    (⟨10, 10, 110, 60⟩ : QRect) ≠ QRect.null ∧
    (⟨10, 10, 110, 60⟩ : QRect) ≠ ⟨10, 10, 50, 50⟩ := by
  decide

/-- C2 (amended): on a label that shows an image, a press at `s`, any drag
moves `ms` and a release at `e` emit exactly one `regionSelected` rectangle:
the normalized rectangle of `s` and the last drag position, or the null
rectangle when there was no drag move. It is the normalized rectangle of `s`
and `e` whenever the last drag position is `e`. -/
theorem pointerSequence_emits (l : ImageLabel) (s : QPoint) (ms : List QPoint) (e : QPoint)
    (h : l.pixmap.isSome = true) :
    emitted (l.pointerSequence s ms e).2 = [dragRect s ms] ∧
    (ms.getLast? = some e →
      emitted (l.pointerSequence s ms e).2 = [(QRect.ofPoints s e).normalized]) := by
  have hn : l.pixmap.isNone = false := by
    cases hp : l.pixmap with
    | none => rw [hp] at h; cases h
    | some _ => rfl
  have h1 : l.mousePressEvent s =
      ({ l with startPos := s, selecting := true, selectionRect := QRect.null }, []) := by
    simp [ImageLabel.mousePressEvent, hn]
  have h2 := moves_selecting
    { l with startPos := s, selecting := true, selectionRect := QRect.null } ms rfl
  have key : emitted (l.pointerSequence s ms e).2 = [dragRect s ms] := by
    simp only [ImageLabel.pointerSequence, h1, emitted_append, h2.2, h2.1,
      ImageLabel.mouseReleaseEvent]
    simp only [emitted, dragRect, if_true, List.nil_append]
  refine ⟨key, fun hlast => ?_⟩
  rw [key]
  simp [dragRect, hlast]

/-- C2 (amended), at a concrete input: the drag (10,10)-(110,60) whose last
drag position is the release point. -/
theorem pointerSequence_emits_witness :
    emitted ((ImageLabel.initial.setPixmap "/pics/photo.png").pointerSequence
        ⟨10, 10⟩ [⟨60, 30⟩, ⟨110, 60⟩] ⟨110, 60⟩).2
      = [(QRect.ofPoints ⟨10, 10⟩ ⟨110, 60⟩).normalized] :=
  (pointerSequence_emits (ImageLabel.initial.setPixmap "/pics/photo.png")
    ⟨10, 10⟩ [⟨60, 30⟩, ⟨110, 60⟩] ⟨110, 60⟩ (by decide)).2 (by decide)

/-! ## C3: the crop of a selected region -/

theorem loads_nonempty (env : Env) (p : String) (hl : env.loads p = true) :
    p.isEmpty = false := by
  simp [Env.loads] at hl
  simpa using hl.1

/-- C3 (as stated, refuted): `/pics/photo.png` is loaded into a new window
while it decodes; once the file no longer decodes, the region recognition
for the rectangle (10,10)-(110,60), called directly or through the drag
(10,10)-(110,60), reads the file again, fails, and takes no crop at all. -/
theorem region_crop_counterexample :
    (OCRWindow.loadImage envScans OCRWindow.initial "/pics/photo.png").1.currentImagePath
      = "/pics/photo.png" ∧
    (OCRWindow.loadImage envScans OCRWindow.initial "/pics/photo.png").1.imageLabel.pixmap
      = some "/pics/photo.png" ∧
    (OCRWindow.performOCROnRegion envCropOnly
        (OCRWindow.loadImage envScans OCRWindow.initial "/pics/photo.png").1
        ⟨10, 10, 110, 60⟩).2 = [Effect.decodeImage "/pics/photo.png"] ∧
    crops (OCRWindow.performOCROnRegion envCropOnly
        (OCRWindow.loadImage envScans OCRWindow.initial "/pics/photo.png").1
        ⟨10, 10, 110, 60⟩).2 = [] ∧
    crops (OCRWindow.run
        (OCRWindow.loadImage envScans OCRWindow.initial "/pics/photo.png").1
        [(envCropOnly, Event.press ⟨10, 10⟩), (envCropOnly, Event.move ⟨110, 60⟩),
         (envCropOnly, Event.release ⟨110, 60⟩)]).2 = [] := by
  decide

/-- C3 (amended): while an image with path `p` is loaded and the file `p`
still decodes, the region recognition for a non-null rectangle `r` decodes
the file `p` again (the pixmap on display is not consulted) and crops the
decoded image to `r` itself: same x, y, width and height, no scaling and no
offset. For the drag (10,10)-(110,60) the crop rectangle is exactly
(10,10)-(110,60). -/
theorem region_crop_exact (env : Env) (w : OCRWindow) (p : String) (r : QRect)
    (hpix : w.imageLabel.pixmap.isSome = true) (hp : w.currentImagePath = p)
    (hl : env.loads p = true) (hr : r.isNull = false) :
    (OCRWindow.performOCROnRegion env w r).2 =
      [Effect.decodeImage p, Effect.copy p r,
       Effect.save (env.applicationDirPath ++ "/ocr_crop.png"),
       Effect.start (env.applicationDirPath ++ "/tesseract")
         [env.applicationDirPath ++ "/ocr_crop.png", "-", "-l", w.lang]] ∧
    crops (OCRWindow.performOCROnRegion env w r).2 = [(p, r)] ∧
    crops (OCRWindow.run w [(env, Event.press ⟨10, 10⟩), (env, Event.move ⟨110, 60⟩),
        (env, Event.release ⟨110, 60⟩)]).2 = [(p, ⟨10, 10, 110, 60⟩)] := by
  have hne : p.isEmpty = false := loads_nonempty env p hl
  have hn : w.imageLabel.pixmap.isNone = false := by
    cases hq : w.imageLabel.pixmap with
    | none => rw [hq] at hpix; cases hpix
    | some _ => rfl
  have h1 : (OCRWindow.performOCROnRegion env w r).2 =
      [Effect.decodeImage p, Effect.copy p r,
       Effect.save (env.applicationDirPath ++ "/ocr_crop.png"),
       Effect.start (env.applicationDirPath ++ "/tesseract")
         [env.applicationDirPath ++ "/ocr_crop.png", "-", "-l", w.lang]] := by
    simp [OCRWindow.performOCROnRegion, hp, hne, performOCR_crop env w p r hr hl]
  refine ⟨h1, by rw [h1]; rfl, ?_⟩
  have hnorm : (QRect.ofPoints ⟨10, 10⟩ ⟨110, 60⟩).normalized = ⟨10, 10, 110, 60⟩ := by decide
  simp [OCRWindow.run, OCRWindow.handle, OCRWindow.onLabel, OCRWindow.deliver,
    ImageLabel.mousePressEvent, ImageLabel.mouseMoveEvent, ImageLabel.mouseReleaseEvent,
    hn, OCRWindow.performOCROnRegion, hp, hne, hnorm]
  rw [performOCR_crop env _ p _ (by decide) hl]
  rfl

/-- C3 (amended), at a concrete input: the drag (10,10)-(110,60) over a loaded
`/pics/photo.png`. -/
theorem region_crop_exact_witness :
    crops (OCRWindow.performOCROnRegion envScans
        (OCRWindow.loadImage envScans OCRWindow.initial "/pics/photo.png").1
        ⟨10, 10, 110, 60⟩).2 = [("/pics/photo.png", ⟨10, 10, 110, 60⟩)] :=
  (region_crop_exact envScans
    (OCRWindow.loadImage envScans OCRWindow.initial "/pics/photo.png").1
    "/pics/photo.png" ⟨10, 10, 110, 60⟩ (by decide) (by decide) (by decide) (by decide)).2.1

/-! ## C10: a click without drag -/

/-- C10: with an image loaded, a press followed directly by a release emits
the null rectangle, and `performOCROnRegion` on the null rectangle is a
whole-image recognition: it only launches the process on the original image
path, saves no crop file, and its launch is the one `loadImage` makes. -/
theorem click_without_drag (env : Env) (w : OCRWindow) (s e : QPoint)
    (hpix : w.imageLabel.pixmap.isSome = true) (hp : w.currentImagePath.isEmpty = false) :
    emitted (w.imageLabel.pointerSequence s [] e).2 = [QRect.null] ∧
    (OCRWindow.performOCROnRegion env w QRect.null).2 =
      [Effect.start (env.applicationDirPath ++ "/tesseract")
        [w.currentImagePath, "-", "-l", w.lang]] ∧
    savedFiles (OCRWindow.performOCROnRegion env w QRect.null).2 = [] ∧
    (OCRWindow.run w [(env, Event.press s), (env, Event.release e)]).2 =
      [Effect.update, Effect.regionSelected QRect.null,
       Effect.start (env.applicationDirPath ++ "/tesseract")
        [w.currentImagePath, "-", "-l", w.lang]] ∧
    (env.loads w.currentImagePath = true →
      invocations (OCRWindow.performOCROnRegion env w QRect.null).2 =
        invocations (OCRWindow.loadImage env w w.currentImagePath).2) := by
  have hn : w.imageLabel.pixmap.isNone = false := by
    cases hq : w.imageLabel.pixmap with
    | none => rw [hq] at hpix; cases hpix
    | some _ => rfl
  have h1 : (OCRWindow.performOCROnRegion env w QRect.null).2 =
      [Effect.start (env.applicationDirPath ++ "/tesseract")
        [w.currentImagePath, "-", "-l", w.lang]] := by
    simp [OCRWindow.performOCROnRegion, hp, performOCR_null, QRect.isNull_null]
  refine ⟨?_, h1, by rw [h1]; rfl, ?_, ?_⟩
  · simp [ImageLabel.pointerSequence, ImageLabel.mousePressEvent, hn, ImageLabel.moves,
      ImageLabel.mouseReleaseEvent, emitted]
  · simp [OCRWindow.run, OCRWindow.handle, OCRWindow.onLabel, OCRWindow.deliver,
      ImageLabel.mousePressEvent, ImageLabel.mouseReleaseEvent, hn,
      OCRWindow.performOCROnRegion, hp, performOCR_null, QRect.isNull_null]
  · intro hl
    rw [h1]
    simp [OCRWindow.loadImage, hl, performOCR_null, QRect.isNull_null, invocations]

/-- C10, at a concrete input: a click on a loaded `/pics/photo.png`. -/
theorem click_without_drag_witness :
    (OCRWindow.run (OCRWindow.loadImage envScans OCRWindow.initial "/pics/photo.png").1
      [(envScans, Event.press ⟨5, 5⟩), (envScans, Event.release ⟨9, 9⟩)]).2 =
      [Effect.update, Effect.regionSelected QRect.null,
       Effect.start "/app/tesseract" ["/pics/photo.png", "-", "-l", "eng"]] :=
  (click_without_drag envScans
    (OCRWindow.loadImage envScans OCRWindow.initial "/pics/photo.png").1
    ⟨5, 5⟩ ⟨9, 9⟩ (by decide) (by decide)).2.2.2.1

/-! ## C8: the selection across a load -/

/-- A window in which `/pics/a.png` was dropped and the region
(10,10)-(110,60) was dragged. -/
def windowWithSelection : OCRWindow :=
  (OCRWindow.run OCRWindow.initial
    [(envScans, Event.drop ["/pics/a.png"]), (envScans, Event.press ⟨10, 10⟩),
     (envScans, Event.move ⟨110, 60⟩), (envScans, Event.release ⟨110, 60⟩)]).1

/-- C8 (the code at the failing input): loading `/pics/b.png` into a window
that holds the selection (10,10)-(110,60) from the previous image shows the
new image but leaves that selection rectangle in place, so the red outline
is still drawn. -/
theorem loadImage_keeps_selection :
    windowWithSelection.imageLabel.selectionRect = ⟨10, 10, 110, 60⟩ ∧
    (OCRWindow.loadImage envScans windowWithSelection "/pics/b.png").1.imageLabel.pixmap
      = some "/pics/b.png" ∧
    (OCRWindow.loadImage envScans windowWithSelection "/pics/b.png").1.imageLabel.selectionRect
      = ⟨10, 10, 110, 60⟩ ∧
    (OCRWindow.loadImage envScans windowWithSelection "/pics/b.png").1.imageLabel.drawsOutline
      = true := by
  decide

/-! ## C4 and C5: the batch runner -/

theorem invocations_batch (env : Env) (w : OCRWindow) (dir : String) (fs : List String) :
    invocations (fs.map (OCRWindow.batchOne env w dir)) =
      fs.map (fun f => ("tesseract",
        [filePath dir f, filePath dir (completeBaseName f ++ ".txt"), "-l", w.lang])) := by
  induction fs with
  | nil => rfl
  | cons f fs ih => simp [OCRWindow.batchOne, invocations, ih]

/-- C4 (the code at the failing input): for the folder `/scans` holding
`a.png`, `b.jpg` and `c.txt` the second argument of each invocation is the
output path with its `.txt` suffix, so an engine that appends `.txt` to its
output target writes `/scans/a.txt.txt`, not `/scans/a.txt`. -/
theorem batch_output_target_keeps_suffix :
    invocations (OCRWindow.batchProcessFolder envScans OCRWindow.initial "/scans").2 =
      [("tesseract", ["/scans/a.png", "/scans/a.txt", "-l", "eng"]),
       ("tesseract", ["/scans/b.jpg", "/scans/b.txt", "-l", "eng"])] ∧
    engineOutputFile "/scans/a.txt" = "/scans/a.txt.txt" ∧
    engineOutputFile "/scans/a.txt" ≠ "/scans/a.txt" := by
  decide

/-- C5 (as stated, refuted): a folder holding `SCAN.PNG` gets an invocation
for that file, although its name ends neither in `.png` nor in `.jpg`. -/
theorem batch_filter_counterexample :
    invocations (OCRWindow.batchProcessFolder envUpper OCRWindow.initial "/scans").2 =
      [("tesseract", ["/scans/SCAN.PNG", "/scans/SCAN.txt", "-l", "eng"])] ∧
    (".png".toList.isSuffixOf "SCAN.PNG".toList) = false ∧
    (".jpg".toList.isSuffixOf "SCAN.PNG".toList) = false := by
  decide

/-- C5 (amended): for a chosen folder, `batchProcessFolder` makes exactly
one invocation per listed file whose name ends, letter case ignored, in
`.png` or `.jpg`, in listing order, and none for any other file; the
invocations are the same whatever the exit codes of the individual runs, and
the window state is not changed. For a listing `a.png`, `b.jpg`, `c.txt`
there are exactly two invocations, with inputs `a.png` and `b.jpg`. -/
theorem batch_invocations (env : Env) (w : OCRWindow) (dir : String)
    (h : dir.isEmpty = false) :
    invocations (OCRWindow.batchProcessFolder env w dir).2 =
      ((env.files dir).filter matchesImageFilters).map (fun f => ("tesseract",
        [filePath dir f, filePath dir (completeBaseName f ++ ".txt"), "-l", w.lang])) ∧
    (∀ other : Env, other.files dir = env.files dir →
      invocations (OCRWindow.batchProcessFolder other w dir).2 =
        invocations (OCRWindow.batchProcessFolder env w dir).2) ∧
    (OCRWindow.batchProcessFolder env w dir).1 = w ∧
    (env.files dir = ["a.png", "b.jpg", "c.txt"] →
      (invocations (OCRWindow.batchProcessFolder env w dir).2).map (fun i => i.2.head?) =
        [some (filePath dir "a.png"), some (filePath dir "b.jpg")]) := by
  have key : ∀ e : Env, invocations (OCRWindow.batchProcessFolder e w dir).2 =
      ((e.files dir).filter matchesImageFilters).map (fun f => ("tesseract",
        [filePath dir f, filePath dir (completeBaseName f ++ ".txt"), "-l", w.lang])) := by
    intro e
    simp [OCRWindow.batchProcessFolder, h, OCRWindow.entryList, invocations_batch]
  refine ⟨key env, ?_, ?_, ?_⟩
  · intro other ho
    rw [key other, key env, ho]
  · simp [OCRWindow.batchProcessFolder, h]
  · intro hf
    have ha : matchesImageFilters "a.png" = true := by decide
    have hb : matchesImageFilters "b.jpg" = true := by decide
    have hc : matchesImageFilters "c.txt" = false := by decide
    rw [key env, hf]
    simp [List.filter, ha, hb, hc]

/-- C5 (amended), at a concrete input: the folder `/scans` holding `a.png`,
`b.jpg` and `c.txt`. -/
theorem batch_invocations_witness :
    (invocations (OCRWindow.batchProcessFolder envScans OCRWindow.initial "/scans").2).map
        (fun i => i.2.head?) = [some (filePath "/scans" "a.png"), some (filePath "/scans" "b.jpg")] :=
  (batch_invocations envScans OCRWindow.initial "/scans" (by decide)).2.2.2 (by decide)

/-! ## C6: the language code -/

/-- Every process launched in a log has `-l` followed by the code `c` as its
third and fourth arguments. -/
def carries (c : String) (es : List Effect) : Prop :=
  ∀ inv ∈ invocations es, inv.2.drop 2 = ["-l", c]

theorem carries_of_none (c : String) (es : List Effect) (h : invocations es = []) :
    carries c es := by
  intro inv hin
  rw [h] at hin
  cases hin

theorem carries_append (c : String) (a b : List Effect) (ha : carries c a)
    (hb : carries c b) : carries c (a ++ b) := by
  intro inv hin
  rw [invocations_append, List.mem_append] at hin
  rcases hin with h | h
  · exact ha inv h
  · exact hb inv h

theorem performOCR_lang (env : Env) (w : OCRWindow) (path : String) (rect : QRect) :
    (OCRWindow.performOCR env w path rect).1.lang = w.lang ∧
    carries w.lang (OCRWindow.performOCR env w path rect).2 := by
  cases hr : rect.isNull with
  | true =>
    rw [performOCR_null env w path rect hr]
    refine ⟨rfl, ?_⟩
    intro inv hin
    simp [invocations] at hin
    simp [hin]
  | false =>
    cases hl : env.loads path with
    | false =>
      rw [performOCR_undecodable env w path rect hr hl]
      exact ⟨rfl, carries_of_none _ _ rfl⟩
    | true =>
      rw [performOCR_crop env w path rect hr hl]
      refine ⟨rfl, ?_⟩
      intro inv hin
      simp [invocations] at hin
      simp [hin]

theorem loadImage_lang (env : Env) (w : OCRWindow) (path : String) :
    (OCRWindow.loadImage env w path).1.lang = w.lang ∧
    carries w.lang (OCRWindow.loadImage env w path).2 := by
  cases hl : env.loads path with
  | false =>
    simp only [OCRWindow.loadImage, hl]
    exact ⟨rfl, carries_of_none _ _ rfl⟩
  | true =>
    have h := performOCR_lang env
      { w with imageLabel := w.imageLabel.setPixmap path, currentImagePath := path }
      path QRect.null
    simp only [OCRWindow.loadImage, hl]
    refine ⟨h.1, ?_⟩
    intro inv hin
    exact h.2 inv (by simpa [invocations] using hin)

theorem performOCROnRegion_lang (env : Env) (w : OCRWindow) (rect : QRect) :
    (OCRWindow.performOCROnRegion env w rect).1.lang = w.lang ∧
    carries w.lang (OCRWindow.performOCROnRegion env w rect).2 := by
  cases hp : w.currentImagePath.isEmpty with
  | true =>
    simp only [OCRWindow.performOCROnRegion, hp]
    exact ⟨rfl, carries_of_none _ _ rfl⟩
  | false =>
    simp only [OCRWindow.performOCROnRegion, hp]
    exact performOCR_lang env w w.currentImagePath rect

theorem deliver_lang (env : Env) (es : List Effect) :
    ∀ w : OCRWindow, invocations es = [] →
      (OCRWindow.deliver env w es).1.lang = w.lang ∧
      carries w.lang (OCRWindow.deliver env w es).2 := by
  induction es with
  | nil =>
    intro w _
    exact ⟨rfl, carries_of_none _ _ rfl⟩
  | cons e es ih =>
    intro w hnone
    cases e with
    | start p a => simp [invocations] at hnone
    | execute p a x => simp [invocations] at hnone
    | imageDropped path =>
      have hes : invocations es = [] := by simpa [invocations] using hnone
      have h1 := loadImage_lang env w path
      have h2 := ih (OCRWindow.loadImage env w path).1 hes
      simp only [OCRWindow.deliver]
      refine ⟨h2.1.trans h1.1, ?_⟩
      intro inv hin
      have hin2 : inv ∈ invocations ((OCRWindow.loadImage env w path).2 ++
          (OCRWindow.deliver env (OCRWindow.loadImage env w path).1 es).2) := by
        simpa [invocations] using hin
      exact carries_append _ _ _ h1.2 (h1.1 ▸ h2.2) inv hin2
    | regionSelected rect =>
      have hes : invocations es = [] := by simpa [invocations] using hnone
      have h1 := performOCROnRegion_lang env w rect
      have h2 := ih (OCRWindow.performOCROnRegion env w rect).1 hes
      simp only [OCRWindow.deliver]
      refine ⟨h2.1.trans h1.1, ?_⟩
      intro inv hin
      have hin2 : inv ∈ invocations ((OCRWindow.performOCROnRegion env w rect).2 ++
          (OCRWindow.deliver env (OCRWindow.performOCROnRegion env w rect).1 es).2) := by
        simpa [invocations] using hin
      exact carries_append _ _ _ h1.2 (h1.1 ▸ h2.2) inv hin2
    | update =>
      have hes : invocations es = [] := by simpa [invocations] using hnone
      have h2 := ih w hes
      simp only [OCRWindow.deliver]
      refine ⟨h2.1, ?_⟩
      intro inv hin
      exact h2.2 inv (by simpa [invocations] using hin)
    | decodePixmap q =>
      have hes : invocations es = [] := by simpa [invocations] using hnone
      have h2 := ih w hes
      simp only [OCRWindow.deliver]
      refine ⟨h2.1, ?_⟩
      intro inv hin
      exact h2.2 inv (by simpa [invocations] using hin)
    | decodeImage q =>
      have hes : invocations es = [] := by simpa [invocations] using hnone
      have h2 := ih w hes
      simp only [OCRWindow.deliver]
      refine ⟨h2.1, ?_⟩
      intro inv hin
      exact h2.2 inv (by simpa [invocations] using hin)
    | copy q r =>
      have hes : invocations es = [] := by simpa [invocations] using hnone
      have h2 := ih w hes
      simp only [OCRWindow.deliver]
      refine ⟨h2.1, ?_⟩
      intro inv hin
      exact h2.2 inv (by simpa [invocations] using hin)
    | save q =>
      have hes : invocations es = [] := by simpa [invocations] using hnone
      have h2 := ih w hes
      simp only [OCRWindow.deliver]
      refine ⟨h2.1, ?_⟩
      intro inv hin
      exact h2.2 inv (by simpa [invocations] using hin)

theorem onLabel_lang (env : Env) (w : OCRWindow) (r : ImageLabel × List Effect)
    (h : invocations r.2 = []) :
    (OCRWindow.onLabel env w r).1.lang = w.lang ∧
    carries w.lang (OCRWindow.onLabel env w r).2 :=
  deliver_lang env r.2 { w with imageLabel := r.1 } h

theorem handle_lang (env : Env) (w : OCRWindow) (ev : Event) (h : ev.isLanguage = false) :
    (OCRWindow.handle env w ev).1.lang = w.lang ∧
    carries w.lang (OCRWindow.handle env w ev).2 := by
  cases ev with
  | language a => simp [Event.isLanguage] at h
  | drop urls =>
    apply onLabel_lang
    cases urls <;> rfl
  | press pos =>
    apply onLabel_lang
    simp only [ImageLabel.mousePressEvent]
    split <;> rfl
  | move pos =>
    apply onLabel_lang
    simp only [ImageLabel.mouseMoveEvent]
    split <;> rfl
  | release pos =>
    apply onLabel_lang
    simp only [ImageLabel.mouseReleaseEvent]
    split <;> rfl
  | batchFolder dir =>
    simp only [OCRWindow.handle, OCRWindow.batchProcessFolder]
    split
    · exact ⟨rfl, carries_of_none _ _ rfl⟩
    · refine ⟨rfl, ?_⟩
      intro inv hin
      rw [invocations_batch] at hin
      simp only [List.mem_map] at hin
      obtain ⟨f, _, hf⟩ := hin
      rw [← hf]
      rfl

theorem run_lang (evs : List (Env × Event)) :
    ∀ w : OCRWindow, (∀ x ∈ evs, x.2.isLanguage = false) →
      (OCRWindow.run w evs).1.lang = w.lang ∧ carries w.lang (OCRWindow.run w evs).2 := by
  induction evs with
  | nil =>
    intro w _
    exact ⟨rfl, carries_of_none _ _ rfl⟩
  | cons x rest ih =>
    intro w hall
    obtain ⟨env, ev⟩ := x
    have h1 := handle_lang env w ev (hall (env, ev) (List.mem_cons_self _ _))
    have h2 := ih (OCRWindow.handle env w ev).1
      (fun y hy => hall y (List.mem_cons_of_mem _ hy))
    simp only [OCRWindow.run]
    exact ⟨h2.1.trans h1.1, carries_append _ _ _ h1.2 (h1.1 ▸ h2.2)⟩

/-- C6: a new window has language `eng`; triggering the menu action of a
code (`eng`, `spa` or `deu`) sets the language to that code, performs no
interaction and leaves the displayed text, the image path and the image
surface with its selection as they were; through any later user actions
that are not language selections the language stays that code, and every
process launched (recognition or batch) has `-l` followed by that code in
its arguments. -/
theorem language_selection (w : OCRWindow) (a : LangAction) (evs : List (Env × Event))
    (h : ∀ x ∈ evs, x.2.isLanguage = false) :
    OCRWindow.initial.lang = "eng" ∧
    a.code ∈ ["eng", "spa", "deu"] ∧
    (OCRWindow.selectLanguage w a).1.lang = a.code ∧
    (OCRWindow.selectLanguage w a).1.text = w.text ∧
    (OCRWindow.selectLanguage w a).1.currentImagePath = w.currentImagePath ∧
    (OCRWindow.selectLanguage w a).1.imageLabel = w.imageLabel ∧
    (OCRWindow.selectLanguage w a).2 = [] ∧
    (OCRWindow.run (OCRWindow.selectLanguage w a).1 evs).1.lang = a.code ∧
    (∀ inv ∈ invocations (OCRWindow.run (OCRWindow.selectLanguage w a).1 evs).2,
      inv.2.drop 2 = ["-l", a.code]) := by
  have hr := run_lang evs (OCRWindow.selectLanguage w a).1 h
  refine ⟨rfl, ?_, rfl, rfl, rfl, rfl, rfl, hr.1, hr.2⟩
  cases a <;> simp [LangAction.code]

/-- C6, at a concrete input: Spanish is selected, then an image is dropped,
a region is dragged and a folder is batch-processed. -/
theorem language_selection_witness :
    (OCRWindow.run (OCRWindow.selectLanguage OCRWindow.initial LangAction.spanish).1
      [(envScans, Event.drop ["/pics/a.png"]), (envScans, Event.press ⟨10, 10⟩),
       (envScans, Event.move ⟨110, 60⟩), (envScans, Event.release ⟨110, 60⟩),
       (envScans, Event.batchFolder "/scans")]).1.lang = "spa" :=
  (language_selection OCRWindow.initial LangAction.spanish
    [(envScans, Event.drop ["/pics/a.png"]), (envScans, Event.press ⟨10, 10⟩),
     (envScans, Event.move ⟨110, 60⟩), (envScans, Event.release ⟨110, 60⟩),
     (envScans, Event.batchFolder "/scans")]
    (by simp [Event.isLanguage])).2.2.2.2.2.2.2.1

end TesseractFrontend
